import Mathlib

/-!
# Verification of `zod-to-entity-definitions`

A shallow embedding of the core generation logic of the
`masaori/zod-to-entity-definitions` repository (src/generator.ts,
src/factories.ts, src/setupZod.ts, src/types.ts), together with proofs of
the properties stated in the repository's specification.

Schema objects are modelled as an inductive tree mirroring the Zod classes
the code inspects via `instanceof` (`ZodString`, `ZodNumber`, `ZodBoolean`,
`ZodDate`, `ZodEnum`, `ZodObject`, `ZodOptional`, `ZodNullable`,
`ZodArray`).  Every node carries the out-of-band metadata that the
repository attaches to schema instances through symbol-keyed properties:
the factory tags (`kind`, `name`, `description` from factories.ts) and the
field tags (`pk`, `unique`, `ref` from setupZod.ts).  The chainable
tag-setters mutate the receiving node in place and return it; this is
modelled by functions that update the root node's metadata record.
Wrapping in `.optional()` / `.nullable()` / `z.array` creates a fresh node
with empty metadata, exactly as Zod does.
-/

namespace ZodToEntityDefinitions

/-- The `kind` tag set by the factories (factories.ts, `SCHEMA_TYPE_SYMBOL`):
`'entity' | 'struct' | 'json'`. -/
inductive SchemaType where
  | entity
  | struct
  | json
deriving DecidableEq, Repr

/-- Reference metadata stored by `.ref(targetEntity, targetColumn = 'id')`
(setupZod.ts, `RefMetadata`).  `σ` is instantiated with `Schema` below. -/
structure RefMetadata (σ : Type) where
  targetEntity : σ
  targetColumn : String
deriving Repr

/-- The full metadata record riding on one schema node: the factory tags
(factories.ts) and the field tags (setupZod.ts).  A fresh Zod node carries
none of them. -/
structure Meta (σ : Type) where
  schemaType : Option SchemaType
  name : Option String
  description : Option String
  pk : Bool
  unique : Bool
  refMeta : Option (RefMetadata σ)
deriving Repr

/-- Zod schema trees, restricted to the node classes the generator
inspects.  Each constructor corresponds to one Zod class checked with
`instanceof` in generator.ts. -/
inductive Schema where
  | zodString (m : Meta Schema)
  | zodNumber (m : Meta Schema)
  | zodBoolean (m : Meta Schema)
  | zodDate (m : Meta Schema)
  | zodEnum (options : List String) (m : Meta Schema)
  | zodObject (shape : List (String × Schema)) (m : Meta Schema)
  | zodOptional (inner : Schema) (m : Meta Schema)
  | zodNullable (inner : Schema) (m : Meta Schema)
  | zodArray (element : Schema) (m : Meta Schema)
deriving Repr

/-- The metadata record of a node. -/
def Schema.meta : Schema → Meta Schema
  | .zodString m => m
  | .zodNumber m => m
  | .zodBoolean m => m
  | .zodDate m => m
  | .zodEnum _ m => m
  | .zodObject _ m => m
  | .zodOptional _ m => m
  | .zodNullable _ m => m
  | .zodArray _ m => m

/-- Update the metadata record of a node in place (the mutation performed
by the chainable setters of setupZod.ts and by the factories). -/
def Schema.mapMeta (g : Meta Schema → Meta Schema) : Schema → Schema
  | .zodString m => .zodString (g m)
  | .zodNumber m => .zodNumber (g m)
  | .zodBoolean m => .zodBoolean (g m)
  | .zodDate m => .zodDate (g m)
  | .zodEnum options m => .zodEnum options (g m)
  | .zodObject shape m => .zodObject shape (g m)
  | .zodOptional inner m => .zodOptional inner (g m)
  | .zodNullable inner m => .zodNullable inner (g m)
  | .zodArray element m => .zodArray element (g m)

/-- The empty metadata of a freshly constructed Zod node. -/
def Meta.empty : Meta Schema :=
  { schemaType := none, name := none, description := none,
    pk := false, unique := false, refMeta := none }

/-- `z.string()` -/
def zString : Schema := .zodString .empty
/-- `z.number()` -/
def zNumber : Schema := .zodNumber .empty
/-- `z.boolean()` -/
def zBoolean : Schema := .zodBoolean .empty
/-- `z.date()` -/
def zDate : Schema := .zodDate .empty
/-- `z.enum([...])` -/
def zEnum (options : List String) : Schema := .zodEnum options .empty
/-- `z.object({...})` -/
def zObject (shape : List (String × Schema)) : Schema := .zodObject shape .empty
/-- `z.array(element)` -/
def zArray (element : Schema) : Schema := .zodArray element .empty
/-- `.optional()`: wraps in a fresh `ZodOptional` node. -/
def Schema.optional (s : Schema) : Schema := .zodOptional s .empty
/-- `.nullable()`: wraps in a fresh `ZodNullable` node. -/
def Schema.nullable (s : Schema) : Schema := .zodNullable s .empty

/-- `.pk()` (setupZod.ts): sets the primary-key flag on the receiver. -/
def Schema.pk (s : Schema) : Schema :=
  s.mapMeta fun m => { m with pk := true }

/-- `.unique()` (setupZod.ts): sets the uniqueness flag on the receiver. -/
def Schema.unique (s : Schema) : Schema :=
  s.mapMeta fun m => { m with unique := true }

/-- `.ref(targetEntity, targetColumn)` (setupZod.ts); the source defaults
`targetColumn` to `"id"` at the call site. -/
def Schema.ref (s : Schema) (targetEntity : Schema) (targetColumn : String) : Schema :=
  s.mapMeta fun m => { m with refMeta := some ⟨targetEntity, targetColumn⟩ }

/-- `isPrimaryKey` (setupZod.ts). -/
def isPrimaryKey (schema : Schema) : Bool := schema.meta.pk

/-- `isUnique` (setupZod.ts). -/
def isUnique (schema : Schema) : Bool := schema.meta.unique

/-- `getRefMetadata` (setupZod.ts). -/
def getRefMetadata (schema : Schema) : Option (RefMetadata Schema) := schema.meta.refMeta

/-- `getSchemaType` (factories.ts). -/
def getSchemaType (schema : Schema) : Option SchemaType := schema.meta.schemaType

/-- `getSchemaName` (factories.ts). -/
def getSchemaName (schema : Schema) : Option String := schema.meta.name

/-- `getSchemaDescription` (factories.ts). -/
def getSchemaDescription (schema : Schema) : Option String := schema.meta.description

/-- `entity(config)` (factories.ts): builds `z.object(columns)` and tags it
with kind `entity`, the given name, and the description when present. -/
def entity (name : String) (description : Option String)
    (columns : List (String × Schema)) : Schema :=
  (zObject columns).mapMeta fun m =>
    match description with
    | some d => { m with schemaType := some .entity, name := some name, description := some d }
    | none => { m with schemaType := some .entity, name := some name }

/-- `struct(config)` (factories.ts): builds `z.object(columns)` and tags it
with kind `struct`, the given name, and the description when present. -/
def struct (name : String) (description : Option String)
    (columns : List (String × Schema)) : Schema :=
  (zObject columns).mapMeta fun m =>
    match description with
    | some d => { m with schemaType := some .struct, name := some name, description := some d }
    | none => { m with schemaType := some .struct, name := some name }

/-- `json(config)` (factories.ts): tags the given schema itself with kind
`json`, the given name, and the description when present. -/
def json (name : String) (description : Option String) (schema : Schema) : Schema :=
  schema.mapMeta fun m =>
    match description with
    | some d => { m with schemaType := some .json, name := some name, description := some d }
    | none => { m with schemaType := some .json, name := some name }

/-! ## Output data model (src/types.ts) -/

/-- The `propertyType` of `EntityPropertyDefinitionPrimitive`:
`'boolean' | 'number' | 'string' | 'Date'` (`date` stands for `'Date'`). -/
inductive PrimitivePropertyType where
  | boolean
  | number
  | string
  | date
deriving DecidableEq, Repr

/-- `EntityPropertyDefinition` (types.ts), a union discriminated by
`propertyType` / `isReference`. -/
inductive EntityPropertyDefinition where
  | primaryKey (name : String)
  | primitive (propertyType : PrimitivePropertyType) (name : String)
      (isUnique : Bool) (isNullable : Bool) (isArray : Bool)
      (acceptableValues : Option (List String))
  | typedStruct (name : String) (structTypeName : String)
      (isUnique : Bool) (isNullable : Bool) (isArray : Bool)
  | referencedObject (name : String) (targetEntityDefinitionName : String)
      (isUnique : Bool) (isNullable : Bool)
deriving DecidableEq, Repr

/-- The `isReference` discriminant of a property definition. -/
def EntityPropertyDefinition.isReference : EntityPropertyDefinition → Bool
  | .referencedObject .. => true
  | _ => false

/-- `EntityDefinition` (types.ts). `description` is `Option` because the
source omits the key entirely when the tag has none. -/
structure EntityDefinition where
  name : String
  description : Option String
  properties : List EntityPropertyDefinition
deriving DecidableEq, Repr

/-- `EntityRelationReferTo` / `EntityRelationReferredBy` (types.ts); the
two source types have identical fields. -/
structure RelationEdge where
  entityName : String
  propertyName : String
  isUnique : Bool
deriving DecidableEq, Repr

/-- `EntityRelation` (types.ts). -/
structure EntityRelation where
  entityName : String
  referTos : List RelationEdge
  referredBys : List RelationEdge
deriving DecidableEq, Repr

/-! ## Generator (src/generator.ts) -/

/-- `UnwrapResult` (generator.ts). -/
structure UnwrapResult where
  innerSchema : Schema
  isNullable : Bool
  isArray : Bool
deriving Repr

/-- The `while` loop of `unwrapSchema`, with the two mutable flags as
accumulators. -/
def unwrapSchemaAux : Schema → Bool → Bool → UnwrapResult
  | .zodOptional inner _, _, isArray => unwrapSchemaAux inner true isArray
  | .zodNullable inner _, _, isArray => unwrapSchemaAux inner true isArray
  | .zodArray element _, isNullable, _ => unwrapSchemaAux element isNullable true
  | s, isNullable, isArray => ⟨s, isNullable, isArray⟩

/-- `unwrapSchema` (generator.ts): strips `ZodOptional` / `ZodNullable` /
`ZodArray` layers, recording whether a nullable-or-optional layer and
whether an array layer was traversed. -/
def unwrapSchema (schema : Schema) : UnwrapResult :=
  unwrapSchemaAux schema false false

/-- `getPrimitiveType` (generator.ts): the `instanceof` cascade mapping a
node class to a primitive property type; `ZodEnum` maps to `string`. -/
def getPrimitiveType : Schema → Option PrimitivePropertyType
  | .zodString _ => some .string
  | .zodNumber _ => some .number
  | .zodBoolean _ => some .boolean
  | .zodDate _ => some .date
  | .zodEnum _ _ => some .string
  | _ => none

/-- `getAcceptableValues` (generator.ts): the options of a `ZodEnum`,
`null` for every other node. -/
def getAcceptableValues : Schema → Option (List String)
  | .zodEnum options _ => some options
  | _ => none

/-- `parseProperty` (generator.ts): classifies one field.  Metadata is
checked on both the raw schema and the fully-unwrapped inner schema, with
the raw schema's reference metadata taking precedence (`??`). -/
def parseProperty (fieldName : String) (fieldSchema : Schema) :
    Except String EntityPropertyDefinition :=
  let r := unwrapSchema fieldSchema
  let isPk := isPrimaryKey fieldSchema || isPrimaryKey r.innerSchema
  let isUniqueField := isUnique fieldSchema || isUnique r.innerSchema
  let refMetadata := (getRefMetadata fieldSchema).orElse fun _ => getRefMetadata r.innerSchema
  if isPk then
    Except.ok (.primaryKey fieldName)
  else
    match refMetadata with
    | some rm =>
      if getSchemaType rm.targetEntity ≠ some SchemaType.entity then
        Except.error ("Field \"" ++ fieldName ++ "\" has .ref() pointing to a non-entity schema. Only entity schemas created with entity() can be referenced.")
      else
        match getSchemaName rm.targetEntity with
        | none => Except.error ("Referenced entity for field \"" ++ fieldName ++ "\" must have a name")
        | some targetEntityName =>
          Except.ok (.referencedObject fieldName targetEntityName isUniqueField r.isNullable)
    | none =>
      if getSchemaType r.innerSchema = some SchemaType.entity then
        Except.error ("Field \"" ++ fieldName ++ "\" contains a direct entity embedding. Entities cannot be directly nested. Use .ref() instead.")
      else if getSchemaType r.innerSchema = some SchemaType.struct then
        match getSchemaName r.innerSchema with
        | none => Except.error ("Struct schema for field \"" ++ fieldName ++ "\" must have a name")
        | some structName =>
          Except.ok (.typedStruct fieldName structName isUniqueField r.isNullable r.isArray)
      else
        match getPrimitiveType r.innerSchema with
        | some primitiveType =>
          Except.ok (.primitive primitiveType fieldName isUniqueField r.isNullable r.isArray
            (getAcceptableValues r.innerSchema))
        | none => Except.error ("Unsupported schema type for field \"" ++ fieldName ++ "\"")

/-- The field loop of `generateEntities`: classify every entry of the
object's shape in declaration order, aborting on the first failure.  (The
source's `instanceof z.ZodType` guard never fires in this embedding, where
every shape entry is a schema.) -/
def parsePropertiesList : List (String × Schema) → Except String (List EntityPropertyDefinition)
  | [] => Except.ok []
  | (fieldName, fieldSchema) :: rest =>
    match parseProperty fieldName fieldSchema with
    | Except.error e => Except.error e
    | Except.ok property =>
      match parsePropertiesList rest with
      | Except.error e => Except.error e
      | Except.ok properties => Except.ok (property :: properties)

/-- `generateEntities` (generator.ts): keeps only entity-tagged schemas, in
input order; each must carry a name and be a `ZodObject`; classifies every
field; the whole call fails on the first error. -/
def generateEntities : List Schema → Except String (List EntityDefinition)
  | [] => Except.ok []
  | schema :: rest =>
    if getSchemaType schema ≠ some SchemaType.entity then
      generateEntities rest
    else
      match getSchemaName schema with
      | none => Except.error "Entity schema must have a name"
      | some name =>
        match schema with
        | .zodObject shape _ =>
          match parsePropertiesList shape with
          | Except.error e => Except.error e
          | Except.ok properties =>
            match generateEntities rest with
            | Except.error e => Except.error e
            | Except.ok definitions =>
              Except.ok ({ name := name, description := getSchemaDescription schema,
                           properties := properties } :: definitions)
        | _ => Except.error ("Entity \"" ++ name ++ "\" must be a ZodObject")

/-- The edge pushed onto `referTos` for a reference property (the first
inner loop of `generateRelations`). -/
def refEdgeOf : EntityPropertyDefinition → Option RelationEdge
  | .referencedObject name target u _ => some ⟨target, name, u⟩
  | _ => none

/-- The edge pushed onto `referredBys` of the definition named
`targetName` by a property of the definition named `ownerName` (the second
inner loop of `generateRelations`). -/
def referredByEdgeOf (targetName ownerName : String) :
    EntityPropertyDefinition → Option RelationEdge
  | .referencedObject name target u _ =>
    if target = targetName then some ⟨ownerName, name, u⟩ else none
  | _ => none

/-- The relation record assembled for one definition `d` by the body of
the outer loop of `generateRelations`: outgoing edges from `d`'s own
properties, incoming edges collected from every *other* definition (the
loop skips definitions whose name equals `d.name`). -/
def relationFor (definitions : List EntityDefinition) (d : EntityDefinition) : EntityRelation :=
  { entityName := d.name
    referTos := d.properties.filterMap refEdgeOf
    referredBys :=
      (definitions.filter fun otherDef => otherDef.name ≠ d.name).flatMap
        fun otherDef => otherDef.properties.filterMap (referredByEdgeOf d.name otherDef.name) }

/-- `generateRelations` (generator.ts).  (The `entityMap` the source
builds is never read, and is omitted.) -/
def generateRelations (definitions : List EntityDefinition) : List EntityRelation :=
  definitions.map (relationFor definitions)

/-! ## Auxiliary notions used by the statements -/

/-- The three modifier wrapper classes handled by `unwrapSchema`.  A "base"
field schema is a node that is none of them. -/
def Schema.isModifierNode : Schema → Bool
  | .zodOptional .. => true
  | .zodNullable .. => true
  | .zodArray .. => true
  | _ => false

/-- A finite sequence of `.optional()` / `.nullable()` / `z.array`
modifier layers. -/
inductive Modifier where
  | moptional
  | mnullable
  | marray
deriving DecidableEq, Repr

/-- Apply one modifier layer. -/
def applyModifier : Modifier → Schema → Schema
  | .moptional, s => s.optional
  | .mnullable, s => s.nullable
  | .marray, s => zArray s

/-- Wrap `s` in the given layers, the head of the list outermost. -/
def applyModifiers (mods : List Modifier) (s : Schema) : Schema :=
  mods.foldr applyModifier s

/-- Does this layer count as a nullable-or-optional layer? -/
def Modifier.isNullableLayer : Modifier → Bool
  | .moptional => true
  | .mnullable => true
  | .marray => false

/-- Does this layer count as an array layer? -/
def Modifier.isArrayLayer : Modifier → Bool
  | .marray => true
  | _ => false

/-! ## Basic lemmas about the embedding -/

theorem Schema.meta_mapMeta (g : Meta Schema → Meta Schema) (s : Schema) :
    (s.mapMeta g).meta = g s.meta := by
  cases s <;> rfl

theorem Schema.meta_zodOptional (i : Schema) (m : Meta Schema) :
    (Schema.zodOptional i m).meta = m := rfl

theorem Schema.meta_zodNullable (i : Schema) (m : Meta Schema) :
    (Schema.zodNullable i m).meta = m := rfl

theorem Schema.meta_optional (s : Schema) : s.optional.meta = Meta.empty := rfl

theorem Schema.meta_nullable (s : Schema) : s.nullable.meta = Meta.empty := rfl

theorem getPrimitiveType_mapMeta (g : Meta Schema → Meta Schema) (s : Schema) :
    getPrimitiveType (s.mapMeta g) = getPrimitiveType s := by
  cases s <;> rfl

theorem getAcceptableValues_mapMeta (g : Meta Schema → Meta Schema) (s : Schema) :
    getAcceptableValues (s.mapMeta g) = getAcceptableValues s := by
  cases s <;> rfl

theorem isModifierNode_mapMeta (g : Meta Schema → Meta Schema) (s : Schema) :
    (s.mapMeta g).isModifierNode = s.isModifierNode := by
  cases s <;> rfl

theorem unwrapSchemaAux_of_not_modifier {s : Schema} (h : s.isModifierNode = false)
    (n a : Bool) : unwrapSchemaAux s n a = ⟨s, n, a⟩ := by
  cases s <;> simp [Schema.isModifierNode] at h ⊢ <;> rfl

theorem unwrapSchema_of_not_modifier {s : Schema} (h : s.isModifierNode = false) :
    unwrapSchema s = ⟨s, false, false⟩ :=
  unwrapSchemaAux_of_not_modifier h false false

theorem unwrapSchemaAux_applyModifiers (base : Schema) (hbase : base.isModifierNode = false) :
    ∀ (mods : List Modifier) (n a : Bool),
      unwrapSchemaAux (applyModifiers mods base) n a =
        ⟨base, n || mods.any Modifier.isNullableLayer, a || mods.any Modifier.isArrayLayer⟩
  | [], n, a => by
    simpa [applyModifiers] using unwrapSchemaAux_of_not_modifier hbase n a
  | mo :: mods, n, a => by
    have ih := unwrapSchemaAux_applyModifiers base hbase mods
    have hcons : applyModifiers (mo :: mods) base = applyModifier mo (applyModifiers mods base) :=
      rfl
    rw [hcons]
    cases mo with
    | moptional =>
      rw [show applyModifier Modifier.moptional (applyModifiers mods base) =
        Schema.zodOptional (applyModifiers mods base) Meta.empty from rfl]
      rw [show ∀ i m, unwrapSchemaAux (Schema.zodOptional i m) n a = unwrapSchemaAux i true a
        from fun i m => rfl]
      rw [ih true a]
      simp [Modifier.isNullableLayer, Modifier.isArrayLayer]
    | mnullable =>
      rw [show applyModifier Modifier.mnullable (applyModifiers mods base) =
        Schema.zodNullable (applyModifiers mods base) Meta.empty from rfl]
      rw [show ∀ i m, unwrapSchemaAux (Schema.zodNullable i m) n a = unwrapSchemaAux i true a
        from fun i m => rfl]
      rw [ih true a]
      simp [Modifier.isNullableLayer, Modifier.isArrayLayer]
    | marray =>
      rw [show applyModifier Modifier.marray (applyModifiers mods base) =
        Schema.zodArray (applyModifiers mods base) Meta.empty from rfl]
      rw [show ∀ i m, unwrapSchemaAux (Schema.zodArray i m) n a = unwrapSchemaAux i n true
        from fun i m => rfl]
      rw [ih n true]
      simp [Modifier.isNullableLayer, Modifier.isArrayLayer]

/-- A classification failure inside some field aborts the whole field loop. -/
theorem parsePropertiesList_error_of_mem {shape : List (String × Schema)}
    {fieldName : String} {s : Schema} {e : String}
    (hmem : (fieldName, s) ∈ shape)
    (herr : parseProperty fieldName s = Except.error e) :
    ∃ e', parsePropertiesList shape = Except.error e' := by
  induction shape with
  | nil => cases hmem
  | cons hd tl ih =>
    obtain ⟨f', s'⟩ := hd
    cases hp : parseProperty f' s' with
    | error e' => exact ⟨e', by simp [parsePropertiesList, hp]⟩
    | ok p =>
      rcases List.mem_cons.mp hmem with heq | hmem'
      · cases heq
        rw [herr] at hp
        cases hp
      · obtain ⟨e', he'⟩ := ih hmem'
        exact ⟨e', by simp [parsePropertiesList, hp, he']⟩

/-- If some entity-tagged schema of the input is bound to fail (nameless,
not an object, or with a failing field loop), the whole generation call
fails. -/
theorem generateEntities_error_of_mem {schemas : List Schema} {sch : Schema}
    (hmem : sch ∈ schemas) (hty : getSchemaType sch = some SchemaType.entity)
    (hfail : ∀ shape m, sch = Schema.zodObject shape m →
      ∃ e, parsePropertiesList shape = Except.error e) :
    ∃ e, generateEntities schemas = Except.error e := by
  induction schemas with
  | nil => cases hmem
  | cons a rest ih =>
    rcases List.mem_cons.mp hmem with rfl | hmem'
    · rw [generateEntities, if_neg (by simp [hty])]
      cases hn : getSchemaName sch with
      | none => exact ⟨"Entity schema must have a name", by simp⟩
      | some name =>
        cases sch with
        | zodObject shape m =>
          obtain ⟨e, he⟩ := hfail shape m rfl
          exact ⟨e, by simp [he]⟩
        | zodString m => exact ⟨"Entity \"" ++ name ++ "\" must be a ZodObject", by simp⟩
        | zodNumber m => exact ⟨"Entity \"" ++ name ++ "\" must be a ZodObject", by simp⟩
        | zodBoolean m => exact ⟨"Entity \"" ++ name ++ "\" must be a ZodObject", by simp⟩
        | zodDate m => exact ⟨"Entity \"" ++ name ++ "\" must be a ZodObject", by simp⟩
        | zodEnum o m => exact ⟨"Entity \"" ++ name ++ "\" must be a ZodObject", by simp⟩
        | zodOptional i m => exact ⟨"Entity \"" ++ name ++ "\" must be a ZodObject", by simp⟩
        | zodNullable i m => exact ⟨"Entity \"" ++ name ++ "\" must be a ZodObject", by simp⟩
        | zodArray i m => exact ⟨"Entity \"" ++ name ++ "\" must be a ZodObject", by simp⟩
    · obtain ⟨e, he⟩ := ih hmem'
      by_cases hA : getSchemaType a = some SchemaType.entity
      · rw [generateEntities, if_neg (by simp [hA])]
        cases hn : getSchemaName a with
        | none => exact ⟨"Entity schema must have a name", by simp⟩
        | some name =>
          cases a with
          | zodObject shape m =>
            cases hp : parsePropertiesList shape with
            | error e' => exact ⟨e', by simp [hp]⟩
            | ok props => exact ⟨e, by simp [hp, he]⟩
          | zodString m => exact ⟨"Entity \"" ++ name ++ "\" must be a ZodObject", by simp⟩
          | zodNumber m => exact ⟨"Entity \"" ++ name ++ "\" must be a ZodObject", by simp⟩
          | zodBoolean m => exact ⟨"Entity \"" ++ name ++ "\" must be a ZodObject", by simp⟩
          | zodDate m => exact ⟨"Entity \"" ++ name ++ "\" must be a ZodObject", by simp⟩
          | zodEnum o m => exact ⟨"Entity \"" ++ name ++ "\" must be a ZodObject", by simp⟩
          | zodOptional i m => exact ⟨"Entity \"" ++ name ++ "\" must be a ZodObject", by simp⟩
          | zodNullable i m => exact ⟨"Entity \"" ++ name ++ "\" must be a ZodObject", by simp⟩
          | zodArray i m => exact ⟨"Entity \"" ++ name ++ "\" must be a ZodObject", by simp⟩
      · rw [generateEntities, if_pos hA]
        exact ⟨e, he⟩

/-! ## Claim theorems -/

/-- C3: a field tagged as primary key — on the raw schema or on its
fully-unwrapped inner schema — always classifies as the `PrimaryKey`
variant carrying only the field name, whatever other tags or wrappers the
field carries. -/
theorem parseProperty_primaryKey_priority (fieldName : String) (s : Schema)
    (h : isPrimaryKey s = true ∨ isPrimaryKey (unwrapSchema s).innerSchema = true) :
    parseProperty fieldName s = Except.ok (.primaryKey fieldName) := by
  unfold parseProperty
  rcases h with h | h <;> simp [h]

/-- C5: unwrapping any finite sequence of optional/nullable/array layers
around a base (non-modifier) schema reaches that base schema, with
`isNullable` true iff some optional-or-nullable layer was traversed and
`isArray` true iff some array layer was traversed; in particular the field
`tags: z.array(z.string()).optional()` classifies as a string primitive
with `isArray = true` and `isNullable = true`. -/
theorem unwrapSchema_modifier_sequences (base : Schema) (hbase : base.isModifierNode = false)
    (mods : List Modifier) :
    unwrapSchema (applyModifiers mods base) =
      ⟨base, mods.any Modifier.isNullableLayer, mods.any Modifier.isArrayLayer⟩
    ∧ parseProperty "tags" ((zArray zString).optional) =
        Except.ok (.primitive .string "tags" false true true none) :=
  ⟨by simpa [unwrapSchema] using unwrapSchemaAux_applyModifiers base hbase mods false false,
   rfl⟩

/-- C6: a field with no primary-key tag and no reference tag whose
fully-unwrapped inner schema is entity-tagged always fails classification
with the direct-embedding error, at any wrapper depth, and generation
fails for any input list containing an entity whose shape holds such a
field. -/
theorem parseProperty_rejects_entity_embedding (fieldName : String) (s : Schema)
    (hpk : (isPrimaryKey s || isPrimaryKey (unwrapSchema s).innerSchema) = false)
    (href : getRefMetadata s = none)
    (href' : getRefMetadata (unwrapSchema s).innerSchema = none)
    (hty : getSchemaType (unwrapSchema s).innerSchema = some SchemaType.entity) :
    parseProperty fieldName s =
      Except.error ("Field \"" ++ fieldName ++ "\" contains a direct entity embedding. Entities cannot be directly nested. Use .ref() instead.")
    ∧ ∀ (schemas : List Schema) (shape : List (String × Schema)) (m : Meta Schema),
        Schema.zodObject shape m ∈ schemas → m.schemaType = some SchemaType.entity →
        (fieldName, s) ∈ shape → ∃ e, generateEntities schemas = Except.error e := by
  have hmain : parseProperty fieldName s =
      Except.error ("Field \"" ++ fieldName ++ "\" contains a direct entity embedding. Entities cannot be directly nested. Use .ref() instead.") := by
    unfold parseProperty
    simp [hpk, href, href', hty, Option.orElse]
  refine ⟨hmain, ?_⟩
  intro schemas shape m hmem hty' hfield
  refine generateEntities_error_of_mem hmem (by simpa [getSchemaType, Schema.meta] using hty') ?_
  intro shape' m' heq
  injection heq with hshape hm
  subst hshape
  exact parsePropertiesList_error_of_mem hfield hmain

/-- C8: a field (not primary-key- or reference-tagged) whose
fully-unwrapped inner schema is a `ZodEnum` classifies as a string
primitive whose `acceptableValues` is exactly the declared option list, in
order; a field whose inner schema is any other primitive node classifies
with `acceptableValues` absent. -/
theorem parseProperty_enum_fidelity (fieldName : String) (s : Schema)
    (hpk : (isPrimaryKey s || isPrimaryKey (unwrapSchema s).innerSchema) = false)
    (href : getRefMetadata s = none)
    (href' : getRefMetadata (unwrapSchema s).innerSchema = none)
    (hent : getSchemaType (unwrapSchema s).innerSchema ≠ some SchemaType.entity)
    (hstr : getSchemaType (unwrapSchema s).innerSchema ≠ some SchemaType.struct) :
    (∀ options m, (unwrapSchema s).innerSchema = Schema.zodEnum options m →
      parseProperty fieldName s =
        Except.ok (.primitive .string fieldName
          (isUnique s || isUnique (unwrapSchema s).innerSchema)
          (unwrapSchema s).isNullable (unwrapSchema s).isArray (some options)))
    ∧ (∀ pt, getPrimitiveType (unwrapSchema s).innerSchema = some pt →
        getAcceptableValues (unwrapSchema s).innerSchema = none →
        parseProperty fieldName s =
          Except.ok (.primitive pt fieldName
            (isUnique s || isUnique (unwrapSchema s).innerSchema)
            (unwrapSchema s).isNullable (unwrapSchema s).isArray none)) := by
  obtain ⟨hpk1, hpk2⟩ := Bool.or_eq_false_iff.mp hpk
  constructor
  · intro options m hinner
    unfold parseProperty
    rw [hinner] at href' hent hstr hpk2
    simp [hpk1, hpk2, href, href', hent, hstr, Option.orElse, hinner,
      getPrimitiveType, getAcceptableValues]
  · intro pt hprim hacc
    unfold parseProperty
    simp [hpk1, hpk2, href, href', hent, hstr, Option.orElse, hprim, hacc]

/-- The json-tagged object field of test/json.test.ts
(`json({name: 'Metadata', schema: z.object({key: z.string()})})`). -/
def metadataJson : Schema := json "Metadata" none (zObject [("key", zString)])

/-- C2 (counter-evidence): the generator has no branch for `kind = json`.
A json-tagged object field fails classification with the unsupported-type
error instead of producing a TypedEmbeddedValue, and a json-tagged string
field classifies as a plain string primitive — its json name tag is
ignored.  The repository's own test suite (test/json.test.ts) expects a
`typedStruct` property carrying the json name in both shapes. -/
theorem parseProperty_json_value_diverges :
    parseProperty "metadata" metadataJson =
      Except.error "Unsupported schema type for field \"metadata\""
    ∧ parseProperty "note" (json "Note" none zString) =
      Except.ok (.primitive .string "note" false false false none) :=
  ⟨rfl, rfl⟩

theorem unwrapSchema_nullable_of_not_modifier {s : Schema} (h : s.isModifierNode = false) :
    unwrapSchema s.nullable = ⟨s, true, false⟩ := by
  rw [show unwrapSchema s.nullable = unwrapSchemaAux s true false from rfl]
  exact unwrapSchemaAux_of_not_modifier h true false

theorem unwrapSchema_optional_of_not_modifier {s : Schema} (h : s.isModifierNode = false) :
    unwrapSchema s.optional = ⟨s, true, false⟩ := by
  rw [show unwrapSchema s.optional = unwrapSchemaAux s true false from rfl]
  exact unwrapSchemaAux_of_not_modifier h true false

/-- C4: attaching the reference tag before wrapping in `.nullable()` and
attaching it after wrapping produce identical ReferencedObject
classifications with `isNullable = true`; the same holds for
`.optional()`, the primary-key tag commutes with wrapping the same way,
and the unique tag commutes with wrapping for every classification
outcome. -/
theorem parseProperty_modifier_order_independence
    (fieldName : String) (base target : Schema) (targetName targetColumn : String)
    (hbase : base.isModifierNode = false)
    (hpk : base.meta.pk = false)
    (hty : getSchemaType target = some SchemaType.entity)
    (hname : getSchemaName target = some targetName) :
    (parseProperty fieldName ((base.ref target targetColumn).nullable) =
        Except.ok (.referencedObject fieldName targetName base.meta.unique true)
      ∧ parseProperty fieldName ((base.nullable).ref target targetColumn) =
        Except.ok (.referencedObject fieldName targetName base.meta.unique true))
    ∧ (parseProperty fieldName ((base.ref target targetColumn).optional) =
        Except.ok (.referencedObject fieldName targetName base.meta.unique true)
      ∧ parseProperty fieldName ((base.optional).ref target targetColumn) =
        Except.ok (.referencedObject fieldName targetName base.meta.unique true))
    ∧ (parseProperty fieldName ((base.pk).nullable) = Except.ok (.primaryKey fieldName)
      ∧ parseProperty fieldName ((base.nullable).pk) = Except.ok (.primaryKey fieldName)
      ∧ parseProperty fieldName ((base.pk).optional) = Except.ok (.primaryKey fieldName)
      ∧ parseProperty fieldName ((base.optional).pk) = Except.ok (.primaryKey fieldName))
    ∧ (parseProperty fieldName ((base.unique).nullable) =
        parseProperty fieldName ((base.nullable).unique)
      ∧ parseProperty fieldName ((base.unique).optional) =
        parseProperty fieldName ((base.optional).unique)) := by
  have hrefmod : ∀ t c, (base.ref t c).isModifierNode = false := fun t c => by
    rw [Schema.ref, isModifierNode_mapMeta]; exact hbase
  have hpkmod : (base.pk).isModifierNode = false := by
    rw [Schema.pk, isModifierNode_mapMeta]; exact hbase
  have huniqmod : (base.unique).isModifierNode = false := by
    rw [Schema.unique, isModifierNode_mapMeta]; exact hbase
  have hty' : target.meta.schemaType = some SchemaType.entity := hty
  have hname' : target.meta.name = some targetName := hname
  refine ⟨⟨?_, ?_⟩, ⟨?_, ?_⟩, ⟨?_, ?_, ?_, ?_⟩, ⟨?_, ?_⟩⟩
  · unfold parseProperty
    rw [unwrapSchema_nullable_of_not_modifier (hrefmod target targetColumn)]
    simp [isPrimaryKey, isUnique, getRefMetadata, getSchemaType, getSchemaName,
      Schema.nullable, Schema.ref, Schema.meta_zodOptional, Schema.meta_zodNullable, Schema.meta_optional, Schema.meta_nullable, Schema.meta_mapMeta, Meta.empty,
      hpk, hty', hname', Option.orElse]
  · unfold parseProperty
    rw [show (base.nullable).ref target targetColumn =
      Schema.zodNullable base { Meta.empty with
        refMeta := some ⟨target, targetColumn⟩ } from rfl]
    rw [show unwrapSchema (Schema.zodNullable base { Meta.empty with
        refMeta := some ⟨target, targetColumn⟩ }) = unwrapSchemaAux base true false from rfl]
    rw [unwrapSchemaAux_of_not_modifier hbase]
    simp [isPrimaryKey, isUnique, getRefMetadata, getSchemaType, getSchemaName,
      Schema.meta_zodOptional, Schema.meta_zodNullable, Schema.meta_optional, Schema.meta_nullable, Meta.empty, hpk, hty', hname', Option.orElse]
  · unfold parseProperty
    rw [unwrapSchema_optional_of_not_modifier (hrefmod target targetColumn)]
    simp [isPrimaryKey, isUnique, getRefMetadata, getSchemaType, getSchemaName,
      Schema.optional, Schema.ref, Schema.meta_zodOptional, Schema.meta_zodNullable, Schema.meta_optional, Schema.meta_nullable, Schema.meta_mapMeta, Meta.empty,
      hpk, hty', hname', Option.orElse]
  · unfold parseProperty
    rw [show (base.optional).ref target targetColumn =
      Schema.zodOptional base { Meta.empty with
        refMeta := some ⟨target, targetColumn⟩ } from rfl]
    rw [show unwrapSchema (Schema.zodOptional base { Meta.empty with
        refMeta := some ⟨target, targetColumn⟩ }) = unwrapSchemaAux base true false from rfl]
    rw [unwrapSchemaAux_of_not_modifier hbase]
    simp [isPrimaryKey, isUnique, getRefMetadata, getSchemaType, getSchemaName,
      Schema.meta_zodOptional, Schema.meta_zodNullable, Schema.meta_optional, Schema.meta_nullable, Meta.empty, hpk, hty', hname', Option.orElse]
  · unfold parseProperty
    rw [unwrapSchema_nullable_of_not_modifier hpkmod]
    simp [isPrimaryKey, Schema.nullable, Schema.pk, Schema.meta_zodNullable, Schema.meta_mapMeta, Meta.empty]
  · unfold parseProperty
    rw [show (base.nullable).pk =
      Schema.zodNullable base { Meta.empty with pk := true } from rfl]
    rw [show unwrapSchema (Schema.zodNullable base { Meta.empty with pk := true }) =
      unwrapSchemaAux base true false from rfl]
    rw [unwrapSchemaAux_of_not_modifier hbase]
    simp [isPrimaryKey, Schema.meta_zodOptional, Schema.meta_zodNullable, Meta.empty]
  · unfold parseProperty
    rw [unwrapSchema_optional_of_not_modifier hpkmod]
    simp [isPrimaryKey, Schema.optional, Schema.pk, Schema.meta_zodOptional, Schema.meta_mapMeta, Meta.empty]
  · unfold parseProperty
    rw [show (base.optional).pk =
      Schema.zodOptional base { Meta.empty with pk := true } from rfl]
    rw [show unwrapSchema (Schema.zodOptional base { Meta.empty with pk := true }) =
      unwrapSchemaAux base true false from rfl]
    rw [unwrapSchemaAux_of_not_modifier hbase]
    simp [isPrimaryKey, Schema.meta_zodOptional, Schema.meta_zodNullable, Meta.empty]
  · unfold parseProperty
    rw [unwrapSchema_nullable_of_not_modifier huniqmod]
    rw [show (base.nullable).unique =
      Schema.zodNullable base { Meta.empty with unique := true } from rfl]
    rw [show unwrapSchema (Schema.zodNullable base { Meta.empty with unique := true }) =
      unwrapSchemaAux base true false from rfl]
    rw [unwrapSchemaAux_of_not_modifier hbase]
    simp [isPrimaryKey, isUnique, getRefMetadata, getSchemaType, getSchemaName,
      Schema.nullable, Schema.unique, Schema.meta_zodOptional, Schema.meta_zodNullable, Schema.meta_optional, Schema.meta_nullable, Schema.meta_mapMeta, Meta.empty,
      getPrimitiveType_mapMeta, getAcceptableValues_mapMeta, Option.orElse]
  · unfold parseProperty
    rw [unwrapSchema_optional_of_not_modifier huniqmod]
    rw [show (base.optional).unique =
      Schema.zodOptional base { Meta.empty with unique := true } from rfl]
    rw [show unwrapSchema (Schema.zodOptional base { Meta.empty with unique := true }) =
      unwrapSchemaAux base true false from rfl]
    rw [unwrapSchemaAux_of_not_modifier hbase]
    simp [isPrimaryKey, isUnique, getRefMetadata, getSchemaType, getSchemaName,
      Schema.optional, Schema.unique, Schema.meta_zodOptional, Schema.meta_zodNullable, Schema.meta_optional, Schema.meta_nullable, Schema.meta_mapMeta, Meta.empty,
      getPrimitiveType_mapMeta, getAcceptableValues_mapMeta, Option.orElse]

theorem referredByEdgeOf_entityName {t w : String} {p : EntityPropertyDefinition}
    {e : RelationEdge} (h : referredByEdgeOf t w p = some e) : e.entityName = w := by
  cases p with
  | referencedObject n tgt u nl =>
    by_cases htgt : tgt = t
    · simp [referredByEdgeOf, htgt] at h
      rw [← h]
    · simp [referredByEdgeOf, htgt] at h
  | primaryKey n => simp [referredByEdgeOf] at h
  | primitive pt n u nl a acc => simp [referredByEdgeOf] at h
  | typedStruct n sn u nl a => simp [referredByEdgeOf] at h

/-- Every incoming edge recorded on a relation record names a definition
other than the record's own entity. -/
theorem mem_referredBys_entityName (definitions : List EntityDefinition)
    (d : EntityDefinition) {e : RelationEdge}
    (he : e ∈ (relationFor definitions d).referredBys) : e.entityName ≠ d.name := by
  obtain ⟨o, ho, hinner⟩ := List.mem_flatMap.mp he
  obtain ⟨p, _, hp⟩ := List.mem_filterMap.mp hinner
  have hne : o.name ≠ d.name := by
    have := (List.mem_filter.mp ho).2
    simpa using this
  rw [referredByEdgeOf_entityName hp]
  exact hne

/-- C7: a self-referencing property appears in its own entity's
`referTos`, but never produces an entry in that entity's `referredBys` —
incoming edges are only collected from definitions with a different
name. -/
theorem generateRelations_self_reference_asymmetry
    (defs : List EntityDefinition) (A : EntityDefinition)
    (fieldName : String) (u isN : Bool) (hA : A ∈ defs)
    (hp : EntityPropertyDefinition.referencedObject fieldName A.name u isN ∈ A.properties) :
    ∃ r ∈ generateRelations defs, r.entityName = A.name ∧
      (⟨A.name, fieldName, u⟩ : RelationEdge) ∈ r.referTos ∧
      ∀ e ∈ r.referredBys, e.entityName ≠ A.name := by
  refine ⟨relationFor defs A, List.mem_map_of_mem _ hA, rfl, ?_, ?_⟩
  · exact List.mem_filterMap.mpr ⟨_, hp, rfl⟩
  · intro e he
    exact mem_referredBys_entityName defs A he

/-- C9: `generateRelations` is total and performs no existence check on
reference targets: a reference to a name that matches no definition still
yields a `referTos` edge on the owning entity's record, one relation
record is emitted per input definition, and no record for the missing
target name exists anywhere in the output. -/
theorem generateRelations_missing_target_total
    (defs : List EntityDefinition) (A : EntityDefinition)
    (fieldName t : String) (u isN : Bool) (hA : A ∈ defs)
    (hp : EntityPropertyDefinition.referencedObject fieldName t u isN ∈ A.properties)
    (hmiss : ∀ d ∈ defs, d.name ≠ t) :
    (generateRelations defs).length = defs.length
    ∧ (∃ r ∈ generateRelations defs, r.entityName = A.name ∧
        (⟨t, fieldName, u⟩ : RelationEdge) ∈ r.referTos)
    ∧ ∀ r ∈ generateRelations defs, r.entityName ≠ t := by
  refine ⟨List.length_map _ _,
    ⟨relationFor defs A, List.mem_map_of_mem _ hA, rfl, List.mem_filterMap.mpr ⟨_, hp, rfl⟩⟩,
    ?_⟩
  intro r hr
  obtain ⟨d, hd, rfl⟩ := List.mem_map.mp hr
  exact hmiss d hd

theorem count_filterMap_refEdge (l : List EntityPropertyDefinition) (e : RelationEdge) :
    (l.filterMap refEdgeOf).count e =
      l.countP fun p => decide (refEdgeOf p = some e) := by
  induction l with
  | nil => rfl
  | cons p l ih =>
    cases hp : refEdgeOf p with
    | none => simp [List.filterMap_cons, hp, List.countP_cons, ih]
    | some b =>
      simp [List.filterMap_cons, hp, List.countP_cons, List.count_cons, ih]

theorem count_filterMap_incoming (t w f : String) (u : Bool)
    (props : List EntityPropertyDefinition) :
    (props.filterMap (referredByEdgeOf t w)).count (⟨w, f, u⟩ : RelationEdge) =
      props.countP fun p => decide (refEdgeOf p = some ⟨t, f, u⟩) := by
  induction props with
  | nil => rfl
  | cons p l ih =>
    cases p with
    | referencedObject n tgt uq nl =>
      by_cases htgt : tgt = t
      · subst htgt
        simp [List.filterMap_cons, referredByEdgeOf, refEdgeOf, List.countP_cons,
          List.count_cons, ih, RelationEdge.mk.injEq]
      · simp [List.filterMap_cons, referredByEdgeOf, refEdgeOf, htgt, List.countP_cons, ih]
    | primaryKey n =>
      simp [List.filterMap_cons, referredByEdgeOf, refEdgeOf, List.countP_cons, ih]
    | primitive pt n uq nl a acc =>
      simp [List.filterMap_cons, referredByEdgeOf, refEdgeOf, List.countP_cons, ih]
    | typedStruct n sn uq nl a =>
      simp [List.filterMap_cons, referredByEdgeOf, refEdgeOf, List.countP_cons, ih]

theorem count_referredBys_zero (B : EntityDefinition) (aName f : String) (u : Bool) :
    ∀ (l : List EntityDefinition), aName ∉ l.map EntityDefinition.name →
      (((l.filter fun o => o.name ≠ B.name).flatMap fun o =>
          o.properties.filterMap (referredByEdgeOf B.name o.name)).count
        (⟨aName, f, u⟩ : RelationEdge)) = 0
  | [], _ => rfl
  | o :: l, h => by
    have hname : o.name ≠ aName := fun hc => h (by simp [hc])
    have htail : aName ∉ l.map EntityDefinition.name := fun hc => h (by simp [hc])
    have hzero : ((o.properties.filterMap (referredByEdgeOf B.name o.name)).count
        (⟨aName, f, u⟩ : RelationEdge)) = 0 := by
      rw [List.count_eq_zero]
      intro hmem
      obtain ⟨p, _, hp⟩ := List.mem_filterMap.mp hmem
      exact hname (referredByEdgeOf_entityName hp).symm
    by_cases ho : o.name ≠ B.name
    · rw [List.filter_cons_of_pos (by simpa using ho), List.flatMap_cons, List.count_append,
        hzero, count_referredBys_zero B aName f u l htail]
    · rw [List.filter_cons_of_neg (by simpa using ho)]
      exact count_referredBys_zero B aName f u l htail

theorem count_referredBys_of_mem (B A : EntityDefinition) (f : String) (u : Bool) :
    ∀ (l : List EntityDefinition), (l.map EntityDefinition.name).Nodup →
      A ∈ l → A.name ≠ B.name →
      (((l.filter fun o => o.name ≠ B.name).flatMap fun o =>
          o.properties.filterMap (referredByEdgeOf B.name o.name)).count
        (⟨A.name, f, u⟩ : RelationEdge)) =
        A.properties.countP fun p => decide (refEdgeOf p = some ⟨B.name, f, u⟩)
  | [], _, hA, _ => absurd hA (List.not_mem_nil A)
  | o :: l, hnd, hA, hne => by
    rw [List.map_cons, List.nodup_cons] at hnd
    obtain ⟨hhead, htail⟩ := hnd
    rcases List.mem_cons.mp hA with rfl | hA'
    · rw [List.filter_cons_of_pos (by simpa using hne), List.flatMap_cons, List.count_append,
        count_filterMap_incoming, count_referredBys_zero B A.name f u l hhead]
      exact Nat.add_zero _
    · have honame : o.name ≠ A.name := fun hc =>
        hhead (hc ▸ List.mem_map_of_mem EntityDefinition.name hA')
      have hzero : ((o.properties.filterMap (referredByEdgeOf B.name o.name)).count
          (⟨A.name, f, u⟩ : RelationEdge)) = 0 := by
        rw [List.count_eq_zero]
        intro hmem
        obtain ⟨p, _, hp⟩ := List.mem_filterMap.mp hmem
        exact honame (referredByEdgeOf_entityName hp).symm
      by_cases ho : o.name ≠ B.name
      · rw [List.filter_cons_of_pos (by simpa using ho), List.flatMap_cons, List.count_append,
          hzero, count_referredBys_of_mem B A f u l htail hA' hne]
        exact Nat.zero_add _
      · rw [List.filter_cons_of_neg (by simpa using ho)]
        exact count_referredBys_of_mem B A f u l htail hA' hne

/-- C1: with the input definitions carrying pairwise distinct names, for
every ordered pair of distinct definitions A and B and every candidate
edge label, the number of `referTos` entries on A's relation record
pointing at B equals the number of ReferencedObject properties of A
targeting B with that field name and uniqueness flag, and the number of
`referredBys` entries naming A on B's relation record equals the same
count — the edge multiset is identical viewed from both endpoints, with
no spurious entries. -/
theorem generateRelations_edge_symmetry
    (defs : List EntityDefinition) (hnd : (defs.map EntityDefinition.name).Nodup)
    (A B : EntityDefinition) (hA : A ∈ defs) (hB : B ∈ defs)
    (hne : A.name ≠ B.name) (f : String) (u : Bool) :
    ∀ r ∈ generateRelations defs,
      (r.entityName = A.name →
        r.referTos.count (⟨B.name, f, u⟩ : RelationEdge) =
          A.properties.countP fun p => decide (refEdgeOf p = some ⟨B.name, f, u⟩))
      ∧ (r.entityName = B.name →
        r.referredBys.count (⟨A.name, f, u⟩ : RelationEdge) =
          A.properties.countP fun p => decide (refEdgeOf p = some ⟨B.name, f, u⟩)) := by
  intro r hr
  obtain ⟨d, hd, rfl⟩ := List.mem_map.mp hr
  constructor
  · intro hdA
    have hdA' : d = A := List.inj_on_of_nodup_map hnd hd hA hdA
    subst hdA'
    exact count_filterMap_refEdge d.properties ⟨B.name, f, u⟩
  · intro hdB
    have hdB' : d = B := List.inj_on_of_nodup_map hnd hd hB hdB
    subst hdB'
    exact count_referredBys_of_mem d A f u defs hnd hA hne

/-- C10: `generateEntities` performs no entity-name uniqueness check:
whenever every entity-tagged schema of the input is an object carrying a
name whose fields all classify successfully — a condition that never
compares names across schemas — generation succeeds and emits one
definition per entity-tagged schema, in input order, bearing that
schema's name; two entity schemas with equal name tags therefore yield
two separate definitions with that name, unmerged. -/
theorem generateEntities_no_name_uniqueness_check
    (schemas : List Schema)
    (h : ∀ s ∈ schemas, getSchemaType s = some SchemaType.entity →
      ∃ shape m props, s = Schema.zodObject shape m ∧ m.name.isSome ∧
        parsePropertiesList shape = Except.ok props) :
    ∃ defs, generateEntities schemas = Except.ok defs ∧
      defs.map EntityDefinition.name =
        (schemas.filter fun s =>
          decide (getSchemaType s = some SchemaType.entity)).filterMap getSchemaName := by
  induction schemas with
  | nil => exact ⟨[], rfl, rfl⟩
  | cons a rest ih =>
    obtain ⟨defs', hok, hnames⟩ := ih fun s hs => h s (List.mem_cons_of_mem a hs)
    by_cases hA : getSchemaType a = some SchemaType.entity
    · obtain ⟨shape, m, props, rfl, hname, hprops⟩ := h a (List.mem_cons_self a rest) hA
      obtain ⟨name, hname'⟩ := Option.isSome_iff_exists.mp hname
      have hgn : getSchemaName (Schema.zodObject shape m) = some name := hname'
      refine ⟨(⟨name, getSchemaDescription (Schema.zodObject shape m), props⟩ :
          EntityDefinition) :: defs', ?_, ?_⟩
      · rw [generateEntities, if_neg (by simp [hA])]
        rw [hgn]
        simp [hprops, hok]
      · simp [List.filter_cons, hA, List.filterMap_cons, hgn, hnames]
    · refine ⟨defs', ?_, ?_⟩
      · rw [generateEntities, if_pos (by simpa using hA)]
        exact hok
      · simp [List.filter_cons, hA, hnames]

/-! ## Concrete inputs for the witnesses -/

/-- The spec §8 scenario's Company entity. -/
def companySchema : Schema :=
  entity "Company" none [("id", zString.pk), ("name", zString)]

/-- The spec §8 scenario's User entity. -/
def userSchema : Schema :=
  entity "User" none
    [("id", zString.pk), ("email", zString.unique),
     ("companyId", zString.ref companySchema "id")]

/-- The definition `generateEntities` produces for `companySchema`. -/
def companyDef : EntityDefinition :=
  { name := "Company", description := none,
    properties := [.primaryKey "id", .primitive .string "name" false false false none] }

/-- The definition `generateEntities` produces for `userSchema`. -/
def userDef : EntityDefinition :=
  { name := "User", description := none,
    properties := [.primaryKey "id", .primitive .string "email" true false false none,
      .referencedObject "companyId" "Company" false false] }

/-- A definition whose `parentId` field references its own entity name. -/
def selfDef : EntityDefinition :=
  { name := "Node", description := none,
    properties := [.primaryKey "id", .referencedObject "parentId" "Node" false true] }

/-- A definition referencing a name that matches no definition. -/
def danglingDef : EntityDefinition :=
  { name := "Order", description := none,
    properties := [.referencedObject "customerId" "Customer" false false] }

/-- Sanity: the scenario schemas generate exactly the two expected
definitions. -/
theorem generateEntities_scenario :
    generateEntities [companySchema, userSchema] = Except.ok [companyDef, userDef] := rfl

/-! ## Witnesses -/

/-- Witness for C1 at the spec scenario. -/
theorem generateRelations_edge_symmetry_witness :
    (([companyDef, userDef].map EntityDefinition.name).Nodup
      ∧ userDef ∈ [companyDef, userDef] ∧ companyDef ∈ [companyDef, userDef]
      ∧ userDef.name ≠ companyDef.name)
    ∧ ∀ r ∈ generateRelations [companyDef, userDef],
        (r.entityName = userDef.name →
          r.referTos.count (⟨companyDef.name, "companyId", false⟩ : RelationEdge) =
            userDef.properties.countP fun p =>
              decide (refEdgeOf p = some ⟨companyDef.name, "companyId", false⟩))
        ∧ (r.entityName = companyDef.name →
          r.referredBys.count (⟨userDef.name, "companyId", false⟩ : RelationEdge) =
            userDef.properties.countP fun p =>
              decide (refEdgeOf p = some ⟨companyDef.name, "companyId", false⟩)) :=
  ⟨⟨by decide, by decide, by decide, by decide⟩,
   generateRelations_edge_symmetry [companyDef, userDef] (by decide) userDef companyDef
     (by decide) (by decide) (by decide) "companyId" false⟩

/-- Witness for C3: a field that is simultaneously pk-, unique- and
ref-tagged under a nullable wrapper still classifies as PrimaryKey. -/
theorem parseProperty_primaryKey_priority_witness :
    (isPrimaryKey ((zString.ref companySchema "id").unique.pk.nullable) = true ∨
      isPrimaryKey
        (unwrapSchema ((zString.ref companySchema "id").unique.pk.nullable)).innerSchema = true)
    ∧ parseProperty "id" ((zString.ref companySchema "id").unique.pk.nullable) =
        Except.ok (.primaryKey "id") :=
  ⟨Or.inr rfl,
   parseProperty_primaryKey_priority "id" ((zString.ref companySchema "id").unique.pk.nullable)
     (Or.inr rfl)⟩

/-- Witness for C4 at `z.string()` referencing Company. -/
theorem parseProperty_modifier_order_independence_witness :
    (zString.isModifierNode = false ∧ zString.meta.pk = false
      ∧ getSchemaType companySchema = some SchemaType.entity
      ∧ getSchemaName companySchema = some "Company")
    ∧ parseProperty "companyId" ((zString.ref companySchema "id").nullable) =
        Except.ok (.referencedObject "companyId" "Company" false true)
    ∧ parseProperty "companyId" ((zString.nullable).ref companySchema "id") =
        Except.ok (.referencedObject "companyId" "Company" false true) :=
  ⟨⟨rfl, rfl, rfl, rfl⟩,
   (parseProperty_modifier_order_independence "companyId" zString companySchema "Company" "id"
     rfl rfl rfl rfl).1.1,
   (parseProperty_modifier_order_independence "companyId" zString companySchema "Company" "id"
     rfl rfl rfl rfl).1.2⟩

/-- Witness for C5 at `z.array(z.string()).optional()`. -/
theorem unwrapSchema_modifier_sequences_witness :
    zString.isModifierNode = false
    ∧ (unwrapSchema (applyModifiers [Modifier.moptional, Modifier.marray] zString) =
        ⟨zString, true, true⟩
      ∧ parseProperty "tags" ((zArray zString).optional) =
          Except.ok (.primitive .string "tags" false true true none)) :=
  ⟨rfl, unwrapSchema_modifier_sequences zString rfl [Modifier.moptional, Modifier.marray]⟩

/-- Witness for C6: directly embedding Company (wrapped in nullable)
fails classification and aborts generation. -/
theorem parseProperty_rejects_entity_embedding_witness :
    ((isPrimaryKey (companySchema.nullable) ||
        isPrimaryKey (unwrapSchema (companySchema.nullable)).innerSchema) = false
      ∧ getRefMetadata (companySchema.nullable) = none
      ∧ getRefMetadata (unwrapSchema (companySchema.nullable)).innerSchema = none
      ∧ getSchemaType (unwrapSchema (companySchema.nullable)).innerSchema =
          some SchemaType.entity)
    ∧ parseProperty "company" (companySchema.nullable) =
        Except.error "Field \"company\" contains a direct entity embedding. Entities cannot be directly nested. Use .ref() instead."
    ∧ ∃ e, generateEntities
        [entity "User" none [("id", zString.pk), ("company", companySchema.nullable)]] =
        Except.error e := by
  have h := parseProperty_rejects_entity_embedding "company" (companySchema.nullable)
    rfl rfl rfl rfl
  refine ⟨⟨rfl, rfl, rfl, rfl⟩, h.1, ?_⟩
  exact h.2 [entity "User" none [("id", zString.pk), ("company", companySchema.nullable)]]
    [("id", zString.pk), ("company", companySchema.nullable)]
    { schemaType := some SchemaType.entity, name := some "User", description := none,
      pk := false, unique := false, refMeta := none }
    (List.mem_singleton.mpr rfl) rfl (by simp)

/-- Witness for C7 at a self-referencing Node definition. -/
theorem generateRelations_self_reference_asymmetry_witness :
    (selfDef ∈ [selfDef]
      ∧ (EntityPropertyDefinition.referencedObject "parentId" "Node" false true)
          ∈ selfDef.properties)
    ∧ ∃ r ∈ generateRelations [selfDef], r.entityName = "Node" ∧
        (⟨"Node", "parentId", false⟩ : RelationEdge) ∈ r.referTos ∧
        ∀ e ∈ r.referredBys, e.entityName ≠ "Node" :=
  ⟨⟨by decide, by decide⟩,
   generateRelations_self_reference_asymmetry [selfDef] selfDef "parentId" false true
     (by decide) (by decide)⟩

/-- Witness for C8: an enum field keeps its option list in order; a Date
field has no acceptable values. -/
theorem parseProperty_enum_fidelity_witness :
    ((isPrimaryKey (zEnum ["admin", "user", "guest"]) ||
        isPrimaryKey (unwrapSchema (zEnum ["admin", "user", "guest"])).innerSchema) = false
      ∧ getRefMetadata (zEnum ["admin", "user", "guest"]) = none)
    ∧ parseProperty "role" (zEnum ["admin", "user", "guest"]) =
        Except.ok (.primitive .string "role" false false false
          (some ["admin", "user", "guest"]))
    ∧ parseProperty "createdAt" zDate =
        Except.ok (.primitive .date "createdAt" false false false none) :=
  ⟨⟨rfl, rfl⟩,
   (parseProperty_enum_fidelity "role" (zEnum ["admin", "user", "guest"])
     rfl rfl rfl (by decide) (by decide)).1 ["admin", "user", "guest"] Meta.empty rfl,
   (parseProperty_enum_fidelity "createdAt" zDate
     rfl rfl rfl (by decide) (by decide)).2 PrimitivePropertyType.date rfl rfl⟩

/-- Witness for C9 at a definition referencing the absent name
`Customer`. -/
theorem generateRelations_missing_target_total_witness :
    (danglingDef ∈ [danglingDef]
      ∧ (EntityPropertyDefinition.referencedObject "customerId" "Customer" false false)
          ∈ danglingDef.properties
      ∧ ∀ d ∈ [danglingDef], d.name ≠ "Customer")
    ∧ (generateRelations [danglingDef]).length = [danglingDef].length
    ∧ (∃ r ∈ generateRelations [danglingDef], r.entityName = "Order" ∧
        (⟨"Customer", "customerId", false⟩ : RelationEdge) ∈ r.referTos)
    ∧ ∀ r ∈ generateRelations [danglingDef], r.entityName ≠ "Customer" := by
  have h := generateRelations_missing_target_total [danglingDef] danglingDef
    "customerId" "Customer" false false (by decide) (by decide) (by decide)
  exact ⟨⟨by decide, by decide, by decide⟩, h.1, h.2.1, h.2.2⟩

/-- Witness for C10: two entities both named `User` both survive, in
order. -/
theorem generateEntities_no_name_uniqueness_check_witness :
    (∀ s ∈ [entity "User" none [("id", zString.pk)], entity "User" none [("age", zNumber)]],
      getSchemaType s = some SchemaType.entity →
      ∃ shape m props, s = Schema.zodObject shape m ∧ m.name.isSome ∧
        parsePropertiesList shape = Except.ok props)
    ∧ ∃ defs, generateEntities
        [entity "User" none [("id", zString.pk)], entity "User" none [("age", zNumber)]] =
        Except.ok defs ∧ defs.map EntityDefinition.name = ["User", "User"] := by
  have hyp : ∀ s ∈ [entity "User" none [("id", zString.pk)],
      entity "User" none [("age", zNumber)]],
      getSchemaType s = some SchemaType.entity →
      ∃ shape m props, s = Schema.zodObject shape m ∧ m.name.isSome ∧
        parsePropertiesList shape = Except.ok props := by
    intro s hs hty
    rcases List.mem_cons.mp hs with rfl | hs'
    · exact ⟨[("id", zString.pk)],
        { schemaType := some SchemaType.entity, name := some "User", description := none,
          pk := false, unique := false, refMeta := none },
        [.primaryKey "id"], rfl, rfl, rfl⟩
    · rcases List.mem_cons.mp hs' with rfl | hs''
      · exact ⟨[("age", zNumber)],
          { schemaType := some SchemaType.entity, name := some "User", description := none,
            pk := false, unique := false, refMeta := none },
          [.primitive .number "age" false false false none], rfl, rfl, rfl⟩
      · cases hs''
  obtain ⟨defs, h1, h2⟩ := generateEntities_no_name_uniqueness_check
    [entity "User" none [("id", zString.pk)], entity "User" none [("age", zNumber)]] hyp
  exact ⟨hyp, defs, h1, by rw [h2]; rfl⟩

end ZodToEntityDefinitions
